import Mathlib

/-!
Verification development for the pcplanner concurrent refresh pipeline.

Shallow embedding of the core components of the repository:
- `core/scraper.py` : price cleaning, URL validation, page fetch retry loop,
  two-tier extraction of (price, image URL);
- `core/data_manager.py` : the price-history ledger
  (`DataManager.update_item_history`);
- `services/workers.py` : the image cache (`ScrapeWorker._get_image_bytes`)
  and the batch orchestrator event accounting (`ScrapeWorker.run`,
  `ScrapeManager._on_finished`).

Machine integers are modelled as `Int`/`Nat` (Python ints are unbounded, so
no wraparound is involved); calendar dates are modelled as `Nat` (the code
stores ISO `YYYY-MM-DD` strings whose lexicographic order coincides with
chronological order); fallible operations return `Option`.
-/

namespace PCPlanner

/-! ## Fetcher/Parser (core/scraper.py) -/

/-- Sum of the digit characters of `s` read left to right as one decimal
numeral, exactly what `int("".join(re.findall(r'\d+', s)))` computes in
`clean_price` (core/scraper.py:18-19); an input with no digits gives 0
(the `if nums else 0` branch). -/
def digitsVal (s : String) : Nat :=
  s.toList.foldl (fun acc c => if c.isDigit then acc * 10 + (c.toNat - 48) else acc) 0

/-- Model of `clean_price` (core/scraper.py:12-21). The argument is the raw
price field rendered as a string; `none` models a missing (`None`) field,
which is falsy and returns 0 (line 14-15). The `ValueError` branch is dead:
a string of digits always parses. -/
def clean_price (price_text : Option String) : Int :=
  match price_text with
  | none => 0
  | some s => Int.ofNat (digitsVal s)

/-- Python's substring test `pat in s` on strings, used by the URL check at
core/scraper.py:28. -/
def containsSubstr (s pat : String) : Bool :=
  (List.range (s.toList.length + 1)).any (fun i => pat.toList.isPrefixOf (s.toList.drop i))

/-- Model of the pre-flight URL validation at core/scraper.py:28:
`if not url or "tokopedia.com" not in url: return None, None`.
The call proceeds to the network exactly when the URL is non-empty and
contains the substring "tokopedia.com" anywhere. -/
def tokopediaUrlValid (url : String) : Bool :=
  !url.isEmpty && containsSubstr url "tokopedia.com"

/-- Modelled from the spec: "URL must belong to the target marketplace's
domain" (spec 4.1). The host is the text between the scheme separator
"://" and the next delimiter; the URL belongs to the marketplace when the
host is tokopedia.com or a subdomain of it. This definition follows the
spec's words and exists to be compared with `tokopediaUrlValid`, which is
what the source actually checks. Helper: drop everything up to and
including the first "://". -/
def afterScheme : List Char → List Char
  | ':' :: '/' :: '/' :: rest => rest
  | _ :: rest => afterScheme rest
  | [] => []

/-- Modelled from the spec (continued): the host component of a URL. -/
def urlHost (url : String) : String :=
  ⟨(afterScheme url.toList).takeWhile (fun c => !(c = '/' || c = '?' || c = ':' || c = '#'))⟩

/-- Modelled from the spec: whether a URL's host is the marketplace domain
tokopedia.com or a subdomain of it. -/
def belongsToMarketplaceDomain (url : String) : Bool :=
  (urlHost url).toList == "tokopedia.com".toList
    || ('.' :: "tokopedia.com".toList).isSuffixOf (urlHost url).toList

/-- The `offers` field of a JSON-LD Product as read at
core/scraper.py:83-87: `product_data.get('offers', [])` is a list of offer
objects, a single offer object, or missing (defaulting to the empty list,
which the `isinstance(offers, list) and offers` guard then skips). An
offer object's own `price` field may itself be missing (`offers[0].get('price')`
returns `None`), modelled as `Option String`. -/
inductive OffersField where
  | missing
  | offersList (offers : List (Option String))
  | offersDict (price : Option String)
deriving DecidableEq

/-- The `image` field of a JSON-LD Product as read at
core/scraper.py:89-93: a list of URL strings, a single string, or missing. -/
inductive ImageField where
  | missing
  | imageList (urls : List String)
  | imageStr (url : String)
deriving DecidableEq

/-- A decoded JSON-LD entry whose `@type` is `Product`
(core/scraper.py:80). -/
structure ProductLd where
  offers : OffersField
  image : ImageField
deriving DecidableEq

/-- A fetched product page, reduced to the four places the parser reads
(core/scraper.py:61-121). `jsonLd = none` covers a missing script tag, a
JSON decode error, or no entry of type Product (the code then falls through
to the HTML tier). `htmlPriceText` is the text of the
`lblPDPDetailProductPrice` element when present; `mainImageSrc` is the
`PDPMainImage` src when present and a string; `fallbackImageSrc` is the
secondary container's img src when present and a string. -/
structure Page where
  jsonLd : Option ProductLd
  htmlPriceText : Option String
  mainImageSrc : Option String
  fallbackImageSrc : Option String
deriving DecidableEq

/-- Tier-1 price extraction from the JSON-LD product
(core/scraper.py:83-87). Note that a present offers structure whose price
field is missing or digit-free still yields `some 0` via `clean_price`. -/
def jsonLdPrice (prod : ProductLd) : Option Int :=
  match prod.offers with
  | OffersField.missing => none
  | OffersField.offersList [] => none
  | OffersField.offersList (o :: _) => some (clean_price o)
  | OffersField.offersDict o => some (clean_price o)

/-- Tier-1 image extraction from the JSON-LD product
(core/scraper.py:89-93). -/
def jsonLdImage (prod : ProductLd) : Option String :=
  match prod.image with
  | ImageField.missing => none
  | ImageField.imageList [] => none
  | ImageField.imageList (u :: _) => some u
  | ImageField.imageStr u => some u

/-- Price extraction across both tiers (core/scraper.py:63-103): tier 2
(`lblPDPDetailProductPrice`) runs only when tier 1 left the price `None`. -/
def parsePrice (p : Page) : Option Int :=
  match p.jsonLd.bind jsonLdPrice with
  | some v => some v
  | none =>
    match p.htmlPriceText with
    | some t => some (clean_price (some t))
    | none => none

/-- Image extraction across both tiers (core/scraper.py:89-121): tier 1,
then `PDPMainImage` when the result `is None`, then the secondary container
when the result is still falsy (`if not image_url:` also catches the empty
string). -/
def parseImage (p : Page) : Option String :=
  let afterMain :=
    match p.jsonLd.bind jsonLdImage with
    | some u => some u
    | none => p.mainImageSrc
  let falsy :=
    match afterMain with
    | none => true
    | some u => u.isEmpty
  if falsy then
    match p.fallbackImageSrc with
    | some u => some u
    | none => afterMain
  else afterMain

/-- Outcome of one `requester.get` attempt inside the retry loop
(core/scraper.py:39-56): a successful response with a parsed page, an HTTP
error status raised by `raise_for_status`, or a connection-level
`RequestException` (connection failure or timeout). -/
inductive AttemptOutcome where
  | ok (page : Page)
  | httpErr (status : Nat)
  | connErr
deriving DecidableEq

/-- The `max_retries = 3` constant at core/scraper.py:35. -/
def max_retries : Nat := 3

/-- The `retry_delay = 2` constant at core/scraper.py:36 (seconds passed to
`time.sleep`). -/
def retry_delay : Nat := 2

/-- Trace of the fetch phase: the response page when some attempt
succeeded, the number of GET requests issued, and the durations of the
`time.sleep` calls made, in order. -/
structure FetchTrace where
  response : Option Page
  requests : Nat
  sleeps : List Nat
deriving DecidableEq

/-- Model of the retry loop `for attempt in range(max_retries)`
(core/scraper.py:39-59), recursing on the number of remaining iterations;
the attempt index passed to the oracle is `total - remaining`.
Branches, in source order:
- success: `break` with the response (line 41-43);
- `HTTPError` with status 404: immediate `return None, None` (line 47-48);
- other `HTTPError`: `time.sleep(retry_delay)` and continue (line 49) —
  the loop may exhaust here, in which case the saved error response is
  falsy (`requests.Response.__bool__` is False for status >= 400), so
  `if not response: return None, None` (line 58-59) yields failure;
- `RequestException`: sleep and continue when attempts remain, else
  `return None, None` (line 50-56). -/
def fetchAux (oracle : Nat → AttemptOutcome) (total : Nat) : Nat → FetchTrace
  | 0 => ⟨none, 0, []⟩
  | n + 1 =>
    match oracle (total - (n + 1)) with
    | AttemptOutcome.ok page => ⟨some page, 1, []⟩
    | AttemptOutcome.httpErr status =>
      if status = 404 then ⟨none, 1, []⟩
      else
        let t := fetchAux oracle total n
        ⟨t.response, t.requests + 1, retry_delay :: t.sleeps⟩
    | AttemptOutcome.connErr =>
      if n = 0 then ⟨none, 1, []⟩
      else
        let t := fetchAux oracle total n
        ⟨t.response, t.requests + 1, retry_delay :: t.sleeps⟩

/-- Result of one `scrape_tokopedia` call: the extracted price and image
URL, plus the network requests issued and sleeps performed. -/
structure ScrapeTrace where
  price : Option Int
  imageUrl : Option String
  requests : Nat
  sleeps : List Nat
deriving DecidableEq

/-- Model of `scrape_tokopedia` (core/scraper.py:23-131): pre-flight URL
validation, then the bounded retry fetch, then two-tier extraction. The
oracle gives the network's answer to the i-th attempt. -/
def scrape_tokopedia (url : String) (oracle : Nat → AttemptOutcome) : ScrapeTrace :=
  if tokopediaUrlValid url then
    let t := fetchAux oracle max_retries max_retries
    let parsed :=
      match t.response with
      | none => (none, none)
      | some page => (parsePrice page, parseImage page)
    ⟨parsed.1, parsed.2, t.requests, t.sleeps⟩
  else ⟨none, none, 0, []⟩

/-- A transient attempt outcome in the sense of the retry policy: a
connection-level failure or an HTTP error other than 404. -/
def TransientOutcome (r : AttemptOutcome) : Prop :=
  r = AttemptOutcome.connErr ∨ ∃ s, s ≠ 404 ∧ r = AttemptOutcome.httpErr s

/-! ## History Ledger (core/data_manager.py) -/

/-- One row of the `price_history` table (core/models.py:56-63): the
calendar date (ISO strings ordered lexicographically, modelled as `Nat`)
and the observed price. -/
structure HistEntry where
  date : Nat
  price : Int
deriving DecidableEq

/-- The mutable per-item state touched by `update_item_history`: the
`current_price` and `previous_price` columns of `items` (core/models.py:33-34)
and the item's price-history rows. The history list is the canonical
date-ascending view of the table, exactly what `get_item_history`
(core/data_manager.py:455-463) returns; the SQL `ORDER BY date DESC LIMIT 1`
row is then the last element, and the pruning subquery's "H most recent
dates" are the last H elements. -/
structure ItemState where
  current_price : Int
  previous_price : Int
  history : List HistEntry
deriving DecidableEq

/-- Default retention count: `DEFAULT_CONFIG["data"]["max_history_entries"]`
(config.py:33); the ledger code reads the configured value
`MAX_HISTORY_ENTRIES` (config.py:122). The ledger operations below take the
retention count H as a parameter, since it is configuration. -/
def MAX_HISTORY_ENTRIES : Nat := 90

/-- The pruning step of `update_item_history` (core/data_manager.py:493-511)
applied to a list of committed rows: when the committed row count exceeds
H, delete every committed row not among the H with the latest dates, i.e.
keep the last H elements of the ascending view. -/
def prune (H : Nat) (history : List HistEntry) : List HistEntry :=
  if H < history.length then history.drop (history.length - H) else history

/-- The history mutation of `update_item_history`
(core/data_manager.py:486-511). The session is created with
`autoflush=False` (core/database.py:38) and `update_item_history` never
calls `session.flush()` (unlike e.g. core/data_manager.py:210), so the
`SELECT count(...)` at lines 494-496 and the pruning `DELETE` at lines
499-508 see only the rows committed before this call — a row pending from
`session.add(new_hist)` (line 491) is invisible to both and is only written
at `session.commit()`. Hence:
- same-day overwrite (lines 487-488): no pending insert; the committed
  count is the pre-call length, pruning keeps the last H committed rows,
  and the overwritten price lands on the surviving max-date row (the model
  assumes H is at least 1 here, as in every configuration, so that row is
  kept);
- insert (lines 490-491): the committed rows are pruned to at most H
  *without counting the pending row*, and the new row is then committed on
  top, so the call can leave H + 1 rows. -/
def updatedHistory (H : Nat) (history : List HistEntry) (today : Nat) (new_price : Int) :
    List HistEntry :=
  match history.getLast? with
  | some e =>
    if e.date = today then prune H (history.dropLast ++ [⟨today, new_price⟩])
    else prune H history ++ [⟨today, new_price⟩]
  | none => prune H history ++ [⟨today, new_price⟩]

/-- Model of `DataManager.update_item_history` (core/data_manager.py:465-514)
for an existing item: the price-field update at lines 481-484 runs only
when `item.current_price != new_price`; then same-day coalescing or insert
and retention pruning over the committed rows (see `updatedHistory`). -/
def update_item_history (H : Nat) (st : ItemState) (today : Nat) (new_price : Int) :
    ItemState :=
  let prices :=
    if st.current_price ≠ new_price then (new_price, st.current_price)
    else (st.current_price, st.previous_price)
  ⟨prices.1, prices.2, updatedHistory H st.history today new_price⟩

/-- The glue between the scraper and the ledger: `ScrapeWorker.run` puts
`price` into the updates dict only when it is not `None`
(services/workers.py:95-96), and `MainWindow._on_item_scraped` calls
`update_item_history` only when `'price' in data`
(ui/main_window.py:536-537). An absent price therefore leaves the item
state untouched. -/
def applyScrape (H : Nat) (st : ItemState) (today : Nat) (scraped : Option Int) : ItemState :=
  match scraped with
  | some p => update_item_history H st today p
  | none => st

/-! ## Image Cache (services/workers.py) -/

/-- Image payloads, abstract byte strings. -/
abbrev ImageBytes := List Nat

/-- The cache file keyed by the hex SHA-256 of the image URL
(`ScrapeWorker._get_cache_path`, services/workers.py:29-31): whether an
attempt to read it succeeds (`open`/`read` may raise `IOError`,
services/workers.py:39-43) and its content. -/
structure CacheFile where
  readable : Bool
  content : ImageBytes
deriving DecidableEq

/-- The world one `_get_image_bytes` call interacts with, for a fixed image
URL: the keyed cache file (none when `os.path.exists` is false), the
outcome of the single image GET (`none` models any request exception or
error status raised at services/workers.py:46-47), and whether the cache
write at services/workers.py:49-50 succeeds. -/
structure ImgWorld where
  cacheFile : Option CacheFile
  download : Option ImageBytes
  writeOk : Bool
deriving DecidableEq

/-- Observable result of one `_get_image_bytes` call: the returned bytes
(`none` for Python `None`; the call never raises, every failure is caught),
whether the cache file was read, whether a network GET was issued, and the
world afterwards. -/
structure ImgFetchResult where
  bytes : Option ImageBytes
  cacheRead : Bool
  networkUsed : Bool
  world : ImgWorld
deriving DecidableEq

/-- The download half of `_get_image_bytes` (services/workers.py:45-54):
one GET; on success write the bytes to the keyed file and return them; on
any exception (GET failure or write failure) return `None`. A failed write
leaves the modelled cache unchanged. -/
def downloadImage (w : ImgWorld) (didRead : Bool) : ImgFetchResult :=
  match w.download with
  | none => ⟨none, didRead, true, w⟩
  | some data =>
    if w.writeOk then ⟨some data, didRead, true, ⟨some ⟨true, data⟩, w.download, w.writeOk⟩⟩
    else ⟨none, didRead, true, w⟩

/-- Model of `ScrapeWorker._get_image_bytes` (services/workers.py:33-54).
The guard `if not image_url or not self.is_running: return None` (line
34-35) fires before any cache or network access; an empty-string URL is
merged with Python `None` since both are falsy. Then: if the keyed file
exists, read it and return its bytes, falling through to the download on
`IOError` (lines 37-43); otherwise download (lines 45-54). -/
def get_image_bytes (isRunning : Bool) (imageUrl : String) (w : ImgWorld) : ImgFetchResult :=
  if imageUrl.isEmpty || !isRunning then ⟨none, false, false, w⟩
  else
    match w.cacheFile with
    | some f => if f.readable then ⟨some f.content, true, false, w⟩ else downloadImage w true
    | none => downloadImage w false

/-! ## Task Orchestrator (services/workers.py) -/

/-- One completed pool task as the consumption loop sees it
(services/workers.py:84-114), in completion order: the item id and display
name from the task dict, the price and image URL returned by `_task`, and
whether `future.result()` re-raised an exception. -/
structure TaskCompletion where
  id : String
  name : String
  price : Option Int
  imgUrl : Option String
  crashed : Bool
deriving DecidableEq

/-- The five signals of the scraping service, as seen by the caller:
`scraping_started(total)`, `item_scraped(id, ...)`, `error(name, ...)`,
`progress_updated(k)`, and `scraping_finished(wasCancelled)`
(services/workers.py:17-22 and 123-128). -/
inductive ScrapeEvent where
  | startedEv (total : Nat)
  | itemScrapedEv (id : String)
  | errorEv (name : String)
  | progressEv (k : Nat)
  | finishedEv (wasCancelled : Bool)
deriving DecidableEq

/-- The per-completion terminal event (services/workers.py:92-111): a crash
in `future.result()` emits `error(name, ...)`; otherwise `item_scraped` when
the updates dict is non-empty (price or image URL present), else
`error(name, ...)` for a total parser failure. -/
def terminalEvent (c : TaskCompletion) : ScrapeEvent :=
  if c.crashed then ScrapeEvent.errorEv c.name
  else if c.price.isSome || c.imgUrl.isSome then ScrapeEvent.itemScrapedEv c.id
  else ScrapeEvent.errorEv c.name

/-- Whether the cancel flag set by `ScrapeWorker.stop`
(services/workers.py:119-120) is visible at the `if not self.is_running`
check (line 85) after `processed` completions have been handled:
`cancelAfter = some c` models a stop() call that lands after the c-th
completion was processed. -/
def cancelObserved (cancelAfter : Option Nat) (processed : Nat) : Bool :=
  match cancelAfter with
  | none => false
  | some c => decide (c ≤ processed)

/-- The consumption loop `for future in as_completed(futures)`
(services/workers.py:84-114) over the completions in completion order:
each iteration first checks the flag and breaks, else emits the terminal
event for the completion and then `progress_updated(completed)` with the
incremented count (the `finally` block, lines 112-114). -/
def loopEvents (cancelAfter : Option Nat) : List TaskCompletion → Nat → List ScrapeEvent
  | [], _ => []
  | c :: rest, processed =>
    if cancelObserved cancelAfter processed then []
    else
      terminalEvent c :: ScrapeEvent.progressEv (processed + 1) ::
        loopEvents cancelAfter rest (processed + 1)

/-- The event stream of one batch, `ScrapeWorker.run` plus
`ScrapeManager._on_finished` (services/workers.py:66-117 and 158-168): an
empty batch emits only `finished` (lines 67-69); otherwise
`scraping_started(n)`, the loop events, and a final
`scraping_finished(wasCancelled)` where `was_cancelled = not
self.worker.is_running` (line 161), i.e. true exactly when stop() was
called at some point. -/
def runEvents (cs : List TaskCompletion) (cancelAfter : Option Nat) : List ScrapeEvent :=
  if cs.isEmpty then [ScrapeEvent.finishedEv cancelAfter.isSome]
  else
    ScrapeEvent.startedEv cs.length ::
      (loopEvents cancelAfter cs 0 ++ [ScrapeEvent.finishedEv cancelAfter.isSome])

/-- The set of tasks the pool actually starts, in submission order, given
the pool size and the cancellation point. Modelled from the source plus the
semantics of `concurrent.futures.ThreadPoolExecutor`: `run()` submits every
task up front (services/workers.py:79-82); `stop()` only sets a flag
(services/workers.py:119-120) and no code path cancels a pending future;
leaving the `with ThreadPoolExecutor(...)` block after the `break`
(services/workers.py:85-87) performs `shutdown(wait=True)`, which executes
every still-queued work item before the worker threads exit. Every
submitted task therefore starts and runs to completion, for every pool
size and every cancellation point. -/
def tasksStarted (_poolSize : Nat) (tasks : List TaskCompletion)
    (_cancelAfter : Option Nat) : List TaskCompletion :=
  tasks

/-- Progress counts carried by the `progress_updated` events of a stream,
in emission order. -/
def progressValues (evs : List ScrapeEvent) : List Nat :=
  evs.filterMap fun e =>
    match e with
    | ScrapeEvent.progressEv k => some k
    | _ => none

/-- Whether an event is a per-item terminal event (`item_scraped` or
`error`). -/
def isTerminalEvent (e : ScrapeEvent) : Bool :=
  match e with
  | ScrapeEvent.itemScrapedEv _ => true
  | ScrapeEvent.errorEv _ => true
  | _ => false

/-- Whether an event is an `item_scraped` (itemDone) event. -/
def isScrapedEvent (e : ScrapeEvent) : Bool :=
  match e with
  | ScrapeEvent.itemScrapedEv _ => true
  | _ => false

/-- Whether an event is an `error` (itemFailed) event. -/
def isErrorEvent (e : ScrapeEvent) : Bool :=
  match e with
  | ScrapeEvent.errorEv _ => true
  | _ => false

/-! ## Helper lemmas -/

lemma prune_length (H : Nat) (l : List HistEntry) : (prune H l).length = min l.length H := by
  unfold prune
  split
  · rw [List.length_drop]
    omega
  · omega

lemma update_item_history_history (H : Nat) (st : ItemState) (today : Nat) (p : Int) :
    (update_item_history H st today p).history = updatedHistory H st.history today p :=
  rfl

lemma getLast?_decomp {l : List HistEntry} {e : HistEntry} (h : l.getLast? = some e) :
    l.dropLast ++ [e] = l := by
  have hne : l ≠ [] := by
    intro h0
    subst h0
    simp at h
  rw [List.getLast?_eq_getLast_of_ne_nil hne] at h
  have he : e = l.getLast hne := (Option.some.injEq _ _).mp h.symm
  rw [he]
  exact List.dropLast_append_getLast hne

lemma prune_pairwise {H : Nat} {l : List HistEntry}
    (h : l.Pairwise (fun a b => a.date < b.date)) :
    (prune H l).Pairwise (fun a b => a.date < b.date) := by
  unfold prune
  split
  · exact h.sublist (List.drop_sublist _ _)
  · exact h

lemma prune_mem {H : Nat} {l : List HistEntry} {e : HistEntry} (h : e ∈ prune H l) : e ∈ l := by
  unfold prune at h
  split at h
  · exact (List.drop_sublist _ _).subset h
  · exact h

lemma updatedHistory_pairwise (H : Nat) (l : List HistEntry) (today : Nat) (p : Int)
    (hsorted : l.Pairwise (fun a b => a.date < b.date))
    (hle : ∀ e ∈ l, e.date ≤ today) :
    (updatedHistory H l today p).Pairwise (fun a b => a.date < b.date) := by
  unfold updatedHistory
  cases hl : l.getLast? with
  | none =>
    have hnil : l = [] := List.getLast?_eq_none_iff.mp hl
    subst hnil
    simp [prune]
  | some e =>
    have hdec : l.dropLast ++ [e] = l := getLast?_decomp hl
    have hmem : e ∈ l := by
      rw [← hdec]
      exact List.mem_append_right _ (List.mem_singleton_self e)
    have hdrop_lt : ∀ a ∈ l.dropLast, a.date < e.date := by
      intro a ha
      have hs := hsorted
      rw [← hdec] at hs
      rcases List.pairwise_append.mp hs with ⟨_, _, hrel⟩
      exact hrel a ha e (List.mem_singleton_self e)
    by_cases hd : e.date = today
    · simp only [hd, if_true]
      apply prune_pairwise
      refine List.pairwise_append.mpr
        ⟨hsorted.sublist (List.dropLast_sublist l), List.pairwise_singleton _ _, ?_⟩
      intro a ha b hb
      rw [List.mem_singleton.mp hb]
      exact hd ▸ hdrop_lt a ha
    · simp only [hd, if_false]
      have helt : e.date < today := lt_of_le_of_ne (hle e hmem) hd
      refine List.pairwise_append.mpr
        ⟨prune_pairwise hsorted, List.pairwise_singleton _ _, ?_⟩
      intro a ha b hb
      rw [List.mem_singleton.mp hb]
      show a.date < today
      have hal : a ∈ l := prune_mem ha
      rw [← hdec] at hal
      rcases List.mem_append.mp hal with h1 | h1
      · exact lt_trans (hdrop_lt a h1) helt
      · rw [List.mem_singleton.mp h1]
        exact helt

lemma updatedHistory_mem {H : Nat} {l : List HistEntry} {today : Nat} {p : Int} {e : HistEntry}
    (h : e ∈ updatedHistory H l today p) : e ∈ l ∨ e = ⟨today, p⟩ := by
  unfold updatedHistory at h
  cases hl : l.getLast? with
  | none =>
    rw [hl] at h
    rcases List.mem_append.mp h with h1 | h1
    · exact Or.inl (prune_mem h1)
    · exact Or.inr (List.mem_singleton.mp h1)
  | some a =>
    rw [hl] at h
    replace h :
        e ∈ (if a.date = today then prune H (l.dropLast ++ [⟨today, p⟩])
          else prune H l ++ [⟨today, p⟩]) := h
    by_cases hd : a.date = today
    · rw [if_pos hd] at h
      rcases List.mem_append.mp (prune_mem h) with h1 | h1
      · exact Or.inl ((List.dropLast_sublist l).subset h1)
      · exact Or.inr (List.mem_singleton.mp h1)
    · rw [if_neg hd] at h
      rcases List.mem_append.mp h with h1 | h1
      · exact Or.inl (prune_mem h1)
      · exact Or.inr (List.mem_singleton.mp h1)

lemma updatedHistory_length_le (H : Nat) (l : List HistEntry) (today : Nat) (p : Int) :
    (updatedHistory H l today p).length ≤ H + 1 := by
  unfold updatedHistory
  cases hl : l.getLast? with
  | none =>
    show (prune H l ++ [(⟨today, p⟩ : HistEntry)]).length ≤ H + 1
    rw [List.length_append, prune_length, List.length_singleton]
    omega
  | some e =>
    show (if e.date = today then prune H (l.dropLast ++ [(⟨today, p⟩ : HistEntry)])
        else prune H l ++ [(⟨today, p⟩ : HistEntry)]).length ≤ H + 1
    by_cases hd : e.date = today
    · rw [if_pos hd, prune_length]
      omega
    · rw [if_neg hd, List.length_append, prune_length, List.length_singleton]
      omega

lemma update_history_nonneg {H : Nat} {st : ItemState} {today : Nat} {p : Int}
    (hp : 0 ≤ p) (hnn : ∀ e ∈ st.history, 0 ≤ e.price) :
    ∀ e ∈ (update_item_history H st today p).history, 0 ≤ e.price := by
  intro e he
  rw [update_item_history_history] at he
  rcases updatedHistory_mem he with h1 | h1
  · exact hnn e h1
  · rw [h1]
    exact hp

lemma clean_price_nonneg (x : Option String) : 0 ≤ clean_price x := by
  cases x with
  | none => exact le_refl 0
  | some s => exact Int.ofNat_nonneg _

lemma jsonLdPrice_nonneg {prod : ProductLd} {v : Int} (h : jsonLdPrice prod = some v) :
    0 ≤ v := by
  unfold jsonLdPrice at h
  split at h <;> simp_all <;> rw [← h] <;> exact clean_price_nonneg _

lemma parsePrice_nonneg {p : Page} {v : Int} (h : parsePrice p = some v) : 0 ≤ v := by
  unfold parsePrice at h
  cases hj : p.jsonLd.bind jsonLdPrice with
  | some w =>
    rw [hj] at h
    cases hjs : p.jsonLd with
    | none => rw [hjs] at hj; simp at hj
    | some prod =>
      rw [hjs] at hj
      simp only [Option.some_bind] at hj
      have := jsonLdPrice_nonneg hj
      rw [Option.some.injEq] at h
      rw [← h]
      exact this
  | none =>
    rw [hj] at h
    cases ht : p.htmlPriceText with
    | none => rw [ht] at h; simp at h
    | some t =>
      rw [ht] at h
      rw [Option.some.injEq] at h
      rw [← h]
      exact clean_price_nonneg _

/-! ## Claim theorems: History Ledger -/

/-- C1 counterexample: for an item with `current_price = 100`,
`previous_price = 0` and history `[(date 1, 100)]`, recording price 100 on
date 2 leaves `previous_price = 0`, not the pre-call most-recent history
price 100 the claim requires: the price-field update at
core/data_manager.py:481-484 is skipped entirely when the new price equals
`current_price`. -/
theorem previous_price_stale_on_equal_price :
    (update_item_history MAX_HISTORY_ENTRIES ⟨100, 0, [⟨1, 100⟩]⟩ 2 100).previous_price = 0
    ∧ (update_item_history MAX_HISTORY_ENTRIES ⟨100, 0, [⟨1, 100⟩]⟩ 2 100).previous_price
        ≠ 100 := by
  constructor
  · rfl
  · decide

/-- C1 amended: after `recordPrice`, when the new price differs from the
item's `current_price` field, `previous_price` becomes the pre-call
`current_price` (the item field, not a history lookup) and `current_price`
becomes the new price; when the new price equals `current_price`, both
fields are left unchanged. -/
theorem update_item_history_price_fields (H : Nat) (st : ItemState) (today : Nat) (p : Int) :
    (p ≠ st.current_price →
      (update_item_history H st today p).previous_price = st.current_price
      ∧ (update_item_history H st today p).current_price = p)
    ∧ (p = st.current_price →
      (update_item_history H st today p).previous_price = st.previous_price
      ∧ (update_item_history H st today p).current_price = st.current_price) := by
  by_cases h : st.current_price = p
  · constructor
    · intro hne
      exact absurd h.symm hne
    · intro _
      simp [update_item_history, h]
  · constructor
    · intro _
      simp [update_item_history, ne_eq, h]
    · intro heq
      exact absurd heq.symm h

/-- C1 amended, witness: recording 150 on an item whose `current_price` is
100 and `previous_price` is 50 sets `previous_price = 100` and
`current_price = 150`. -/
theorem update_item_history_price_fields_w :
    (update_item_history 90 ⟨100, 50, []⟩ 7 150).previous_price = 100
    ∧ (update_item_history 90 ⟨100, 50, []⟩ 7 150).current_price = 150 :=
  (update_item_history_price_fields 90 ⟨100, 50, []⟩ 7 150).1 (by decide)

/-- C2 counterexample: with H = 3, four `recordPrice` calls on ascending
dates 1..4 with prices 100, 110, 120, 130 leave all four entries, not the
claimed [(2, 110), (3, 120), (4, 130)]: on the fourth call the pruning
count at core/data_manager.py:494-496 sees only the 3 committed rows (the
pending `session.add` row is unflushed, `autoflush=False` per
core/database.py:38), so `3 > 3` fails and nothing is pruned. -/
theorem history_exceeds_cap_after_four_calls :
    (update_item_history 3 (update_item_history 3 (update_item_history 3
        (update_item_history 3 ⟨0, 0, []⟩ 1 100) 2 110) 3 120) 4 130).history
      = [⟨1, 100⟩, ⟨2, 110⟩, ⟨3, 120⟩, ⟨4, 130⟩]
    ∧ (update_item_history 3 (update_item_history 3 (update_item_history 3
        (update_item_history 3 ⟨0, 0, []⟩ 1 100) 2 110) 3 120) 4 130).history
      ≠ [⟨2, 110⟩, ⟨3, 120⟩, ⟨4, 130⟩]
    ∧ 3 < (update_item_history 3 (update_item_history 3 (update_item_history 3
        (update_item_history 3 ⟨0, 0, []⟩ 1 100) 2 110) 3 120) 4 130).history.length := by
  refine ⟨by decide, by decide, by decide⟩

/-- C2 amended: the retained history never exceeds H + 1 entries: the
pruning count sees only the rows committed before the call, so an
inserting call prunes the committed rows to at most H and then commits one
more. With H = 3, the four ascending calls with prices 100, 110, 120, 130
leave [(1, 100), (2, 110), (3, 120), (4, 130)] — four entries — and a
fifth call on date 5 with price 140 drops only the oldest entry, leaving
[(2, 110), (3, 120), (4, 130), (5, 140)], again four. -/
theorem update_item_history_retention :
    (∀ (H : Nat) (st : ItemState) (today : Nat) (p : Int),
      (update_item_history H st today p).history.length ≤ H + 1)
    ∧ (update_item_history 3 (update_item_history 3 (update_item_history 3
          (update_item_history 3 ⟨0, 0, []⟩ 1 100) 2 110) 3 120) 4 130).history
        = [⟨1, 100⟩, ⟨2, 110⟩, ⟨3, 120⟩, ⟨4, 130⟩]
    ∧ (update_item_history 3 (update_item_history 3 (update_item_history 3
          (update_item_history 3 (update_item_history 3 ⟨0, 0, []⟩ 1 100) 2 110) 3 120)
          4 130) 5 140).history
        = [⟨2, 110⟩, ⟨3, 120⟩, ⟨4, 130⟩, ⟨5, 140⟩] := by
  refine ⟨?_, by decide, by decide⟩
  intro H st today p
  rw [update_item_history_history]
  exact updatedHistory_length_le H st.history today p

/-- C3: history dates stay strictly increasing (hence unique per calendar
date) across `recordPrice`, given the invariant held before the call and
today is not earlier than any recorded date; and concretely, on an item
with history [(4, 80)], recording 90 then 95 on date 5 leaves the length
unchanged between the two calls and the sole date-5 entry reading 95. -/
theorem update_item_history_unique_dates (H : Nat) (st : ItemState) (today : Nat) (p : Int)
    (hsorted : st.history.Pairwise (fun a b => a.date < b.date))
    (hle : ∀ e ∈ st.history, e.date ≤ today) :
    (update_item_history H st today p).history.Pairwise (fun a b => a.date < b.date)
    ∧ ((update_item_history 90 (update_item_history 90 ⟨0, 0, [⟨4, 80⟩]⟩ 5 90) 5 95).history.length
        = (update_item_history 90 ⟨0, 0, [⟨4, 80⟩]⟩ 5 90).history.length
      ∧ (update_item_history 90 (update_item_history 90 ⟨0, 0, [⟨4, 80⟩]⟩ 5 90) 5 95).history
        = [⟨4, 80⟩, ⟨5, 95⟩]) := by
  constructor
  · rw [update_item_history_history]
    exact updatedHistory_pairwise H st.history today p hsorted hle
  · constructor
    · decide
    · decide

/-- C3 witness: the invariant-preservation applied to the item with sorted
history [(1, 5)] and today = 3. -/
theorem update_item_history_unique_dates_w :
    (update_item_history 7 ⟨0, 0, [⟨1, 5⟩]⟩ 3 9).history.Pairwise
        (fun a b => a.date < b.date)
    ∧ ((update_item_history 90 (update_item_history 90 ⟨0, 0, [⟨4, 80⟩]⟩ 5 90) 5 95).history.length
        = (update_item_history 90 ⟨0, 0, [⟨4, 80⟩]⟩ 5 90).history.length
      ∧ (update_item_history 90 (update_item_history 90 ⟨0, 0, [⟨4, 80⟩]⟩ 5 90) 5 95).history
        = [⟨4, 80⟩, ⟨5, 95⟩]) :=
  update_item_history_unique_dates 7 ⟨0, 0, [⟨1, 5⟩]⟩ 3 9 (by decide) (by decide)

/-! ## Helper lemmas: fetch retry loop -/

lemma fetchAux_requests_le (oracle : Nat → AttemptOutcome) (total : Nat) :
    ∀ n, (fetchAux oracle total n).requests ≤ n := by
  intro n
  induction n with
  | zero => simp [fetchAux]
  | succ n ih =>
    cases horacle : oracle (total - (n + 1)) with
    | ok page => simp [fetchAux, horacle]
    | httpErr s =>
      simp only [fetchAux, horacle]
      split
      · show (1 : Nat) ≤ n + 1
        omega
      · show (fetchAux oracle total n).requests + 1 ≤ n + 1
        omega
    | connErr =>
      simp only [fetchAux, horacle]
      split
      · show (1 : Nat) ≤ n + 1
        omega
      · show (fetchAux oracle total n).requests + 1 ≤ n + 1
        omega

lemma fetchAux_requests_pos (oracle : Nat → AttemptOutcome) (total : Nat) (n : Nat)
    (hn : n ≠ 0) : 1 ≤ (fetchAux oracle total n).requests := by
  cases n with
  | zero => exact absurd rfl hn
  | succ m =>
    cases horacle : oracle (total - (m + 1)) with
    | ok page => simp [fetchAux, horacle]
    | httpErr s =>
      simp only [fetchAux, horacle]
      split
      · exact le_refl 1
      · show 1 ≤ (fetchAux oracle total m).requests + 1
        omega
    | connErr =>
      simp only [fetchAux, horacle]
      split
      · exact le_refl 1
      · show 1 ≤ (fetchAux oracle total m).requests + 1
        omega

lemma fetchAux_404 (oracle : Nat → AttemptOutcome) (total n : Nat)
    (h : oracle (total - (n + 1)) = AttemptOutcome.httpErr 404) :
    fetchAux oracle total (n + 1) = ⟨none, 1, []⟩ := by
  simp [fetchAux, h]

lemma fetchAux_transient_step (oracle : Nat → AttemptOutcome) (total n : Nat)
    (h : TransientOutcome (oracle (total - (n + 1)))) (hn : n ≠ 0) :
    fetchAux oracle total (n + 1)
      = ⟨(fetchAux oracle total n).response, (fetchAux oracle total n).requests + 1,
          retry_delay :: (fetchAux oracle total n).sleeps⟩ := by
  rcases h with h | ⟨s, hs, h⟩
  · simp [fetchAux, h, hn]
  · simp [fetchAux, h, hs]

lemma fetchAux_transient_last (oracle : Nat → AttemptOutcome) (total : Nat)
    (h : TransientOutcome (oracle (total - 1))) :
    (fetchAux oracle total 1).response = none
    ∧ (fetchAux oracle total 1).requests = 1
    ∧ ∀ d ∈ (fetchAux oracle total 1).sleeps, d = retry_delay := by
  rcases h with h | ⟨s, hs, h⟩
  · simp [fetchAux, h]
  · simp [fetchAux, h, hs]

lemma scrape_requests_eq (url : String) (oracle : Nat → AttemptOutcome)
    (hv : tokopediaUrlValid url = true) :
    (scrape_tokopedia url oracle).requests
      = (fetchAux oracle max_retries max_retries).requests := by
  unfold scrape_tokopedia
  rw [hv]
  rfl

lemma scrape_eq_of_response_none (url : String) (oracle : Nat → AttemptOutcome)
    (hv : tokopediaUrlValid url = true)
    (hr : (fetchAux oracle max_retries max_retries).response = none) :
    scrape_tokopedia url oracle
      = ⟨none, none, (fetchAux oracle max_retries max_retries).requests,
          (fetchAux oracle max_retries max_retries).sleeps⟩ := by
  unfold scrape_tokopedia
  rw [hv]
  simp [hr]

/-! ## Claim theorems: Fetcher retry policy and URL validation -/

/-- C4: over any sequence of network answers and any URL passing
validation, `scrape_tokopedia` issues at most 3 GET requests; a 404 on the
first attempt terminates immediately with (none, none) after exactly one
request and no sleep; a transient first attempt (connection failure or a
500) is followed by at least one further request; and when all three
attempts are transient the call returns (none, none) after exactly 3
requests, every inter-attempt delay being the fixed `retry_delay`. -/
theorem scrape_retry_policy (url : String) (oracle : Nat → AttemptOutcome)
    (hv : tokopediaUrlValid url = true) :
    (scrape_tokopedia url oracle).requests ≤ 3
    ∧ (oracle 0 = AttemptOutcome.httpErr 404 →
        scrape_tokopedia url oracle = ⟨none, none, 1, []⟩)
    ∧ ((oracle 0 = AttemptOutcome.connErr ∨ oracle 0 = AttemptOutcome.httpErr 500) →
        2 ≤ (scrape_tokopedia url oracle).requests)
    ∧ ((∀ i, i < 3 → TransientOutcome (oracle i)) →
        (scrape_tokopedia url oracle).price = none
        ∧ (scrape_tokopedia url oracle).imageUrl = none
        ∧ (scrape_tokopedia url oracle).requests = 3
        ∧ ∀ d ∈ (scrape_tokopedia url oracle).sleeps, d = retry_delay) := by
  refine ⟨?_, ?_, ?_, ?_⟩
  · rw [scrape_requests_eq url oracle hv]
    exact fetchAux_requests_le oracle max_retries max_retries
  · intro h404
    have hf : fetchAux oracle max_retries max_retries = ⟨none, 1, []⟩ := by
      show fetchAux oracle max_retries (2 + 1) = ⟨none, 1, []⟩
      exact fetchAux_404 oracle max_retries 2 h404
    have heq := scrape_eq_of_response_none url oracle hv (by rw [hf])
    rw [heq, hf]
  · intro h0
    rw [scrape_requests_eq url oracle hv]
    have htr0 : TransientOutcome (oracle (max_retries - (2 + 1))) := by
      rcases h0 with h | h
      · exact Or.inl h
      · exact Or.inr ⟨500, by omega, h⟩
    have e3 := fetchAux_transient_step oracle max_retries 2 htr0 (by omega)
    have hpos : 1 ≤ (fetchAux oracle max_retries 2).requests :=
      fetchAux_requests_pos oracle max_retries 2 (by omega)
    show 2 ≤ (fetchAux oracle max_retries (2 + 1)).requests
    rw [e3]
    show 2 ≤ (fetchAux oracle max_retries 2).requests + 1
    omega
  · intro htrans
    have e3 := fetchAux_transient_step oracle max_retries 2 (htrans 0 (by omega)) (by omega)
    have e2 := fetchAux_transient_step oracle max_retries 1 (htrans 1 (by omega)) (by omega)
    have e1 := fetchAux_transient_last oracle max_retries (htrans 2 (by omega))
    have hresp : (fetchAux oracle max_retries max_retries).response = none := by
      show (fetchAux oracle max_retries (2 + 1)).response = none
      rw [e3]
      show (fetchAux oracle max_retries (1 + 1)).response = none
      rw [e2]
      exact e1.1
    have heq := scrape_eq_of_response_none url oracle hv hresp
    rw [heq]
    refine ⟨rfl, rfl, ?_, ?_⟩
    · show (fetchAux oracle max_retries (2 + 1)).requests = 3
      rw [e3]
      show (fetchAux oracle max_retries (1 + 1)).requests + 1 = 3
      rw [e2]
      show (fetchAux oracle max_retries 1).requests + 1 + 1 = 3
      rw [e1.2.1]
    · show ∀ d ∈ (fetchAux oracle max_retries (2 + 1)).sleeps, d = retry_delay
      rw [e3]
      show ∀ d ∈ retry_delay :: (fetchAux oracle max_retries (1 + 1)).sleeps, d = retry_delay
      rw [e2]
      intro d hd
      simp only [List.mem_cons] at hd
      rcases hd with h | h | h
      · exact h
      · exact h
      · exact e1.2.2 d h

/-- C4 witness: on the valid URL "https://tokopedia.com/a" with every
attempt failing at the connection level, the call makes exactly 3 requests
and yields no price. -/
theorem scrape_retry_policy_w :
    (scrape_tokopedia "https://tokopedia.com/a" (fun _ => AttemptOutcome.connErr)).price = none
    ∧ (scrape_tokopedia "https://tokopedia.com/a" (fun _ => AttemptOutcome.connErr)).requests
        = 3 := by
  have h := scrape_retry_policy "https://tokopedia.com/a" (fun _ => AttemptOutcome.connErr)
    (by decide)
  have h4 := h.2.2.2 (fun i _ => Or.inl rfl)
  exact ⟨h4.1, h4.2.2.1⟩

/-- C9 counterexample: the URL "https://evil.com/?ref=tokopedia.com" does
not belong to the marketplace domain (its host is evil.com), yet
`scrape_tokopedia` does not return immediately: the substring check at
core/scraper.py:28 passes and 3 network requests are issued. -/
theorem scrape_outside_domain_still_requests :
    belongsToMarketplaceDomain "https://evil.com/?ref=tokopedia.com" = false
    ∧ (scrape_tokopedia "https://evil.com/?ref=tokopedia.com"
        (fun _ => AttemptOutcome.connErr)).requests = 3 := by
  constructor
  · decide
  · decide

/-- C9 amended: for every URL failing the source's validation — empty, or
not containing "tokopedia.com" as a substring — `scrape_tokopedia` returns
(none, none) immediately, issuing no network request. -/
theorem scrape_invalid_url_no_request (url : String) (oracle : Nat → AttemptOutcome)
    (h : tokopediaUrlValid url = false) :
    scrape_tokopedia url oracle = ⟨none, none, 0, []⟩ := by
  unfold scrape_tokopedia
  rw [h]
  simp

/-- C9 amended, witness: "https://example.com/item" fails validation and is
rejected with zero requests; so is the empty URL. -/
theorem scrape_invalid_url_no_request_w :
    (tokopediaUrlValid "https://example.com/item" = false
      ∧ scrape_tokopedia "https://example.com/item" (fun _ => AttemptOutcome.connErr)
          = ⟨none, none, 0, []⟩)
    ∧ (tokopediaUrlValid "" = false
      ∧ scrape_tokopedia "" (fun _ => AttemptOutcome.connErr) = ⟨none, none, 0, []⟩) :=
  ⟨⟨by decide, scrape_invalid_url_no_request _ _ (by decide)⟩,
    ⟨by decide, scrape_invalid_url_no_request _ _ (by decide)⟩⟩

/-! ## Claim theorems: pipeline price invariants -/

/-- A page whose JSON-LD product descriptor is present but carries no
discoverable price: its offers list has one offer with no price field, its
image field is missing, and the tier-2 price element is absent. -/
def pageNoPrice : Page :=
  ⟨some ⟨OffersField.offersList [none], ImageField.missing⟩, none, none, none⟩

/-- C6 counterexample: on `pageNoPrice` — a page with no discoverable price
anywhere (the offer's price field is missing, the HTML price element is
absent) — the parser returns `some 0` (`clean_price(None)` is 0,
core/scraper.py:14-15 via line 85), and the pipeline then records a
zero-price history entry for an item with empty history. -/
theorem zero_price_entry_from_missing_offer_price :
    pageNoPrice.htmlPriceText = none
    ∧ parsePrice pageNoPrice = some 0
    ∧ (applyScrape 90 ⟨0, 0, []⟩ 7 (parsePrice pageNoPrice)).history = [⟨7, 0⟩] := by
  refine ⟨rfl, by decide, by decide⟩

/-- C6 amended: every price the pipeline can record is non-negative, and
when the scraper yields no price at all (`parsePrice = none`) the item
state — in particular its history — is untouched; but a present yet
price-less or digit-free offer field is cleaned to 0 and does create a
zero-price entry (see the counterexample). -/
theorem scrape_pipeline_price_invariants (H : Nat) (st : ItemState) (today : Nat)
    (page : Page) (hnn : ∀ e ∈ st.history, 0 ≤ e.price) :
    (parsePrice page = none → applyScrape H st today (parsePrice page) = st)
    ∧ ∀ e ∈ (applyScrape H st today (parsePrice page)).history, 0 ≤ e.price := by
  constructor
  · intro h
    rw [h]
    rfl
  · cases hp : parsePrice page with
    | none =>
      show ∀ e ∈ st.history, 0 ≤ e.price
      exact hnn
    | some v =>
      exact update_history_nonneg (parsePrice_nonneg hp) hnn

/-- C6 amended, witness: a page with offer price "Rp 1.000" recorded onto
an item with empty history yields the sole entry (7, 1000), whose price is
non-negative. -/
theorem scrape_pipeline_price_invariants_w :
    0 ≤ (HistEntry.mk 7 1000).price :=
  (scrape_pipeline_price_invariants 90 ⟨0, 0, []⟩ 7
    ⟨some ⟨OffersField.offersDict (some "Rp 1.000"), ImageField.missing⟩, none, none, none⟩
    (by decide)).2 ⟨7, 1000⟩ (by decide)

/-! ## Claim theorems: Image Cache -/

/-- C8 counterexample: when the keyed cache file exists but its read raises
`IOError` (the `except IOError: pass` at services/workers.py:42-43), the
call falls through to a network GET — so "file exists" alone does not imply
"no network request". -/
theorem cache_hit_unreadable_uses_network :
    ((⟨some ⟨false, [1, 2]⟩, some [3], true⟩ : ImgWorld).cacheFile).isSome = true
    ∧ (get_image_bytes true "http://img/a.jpg" ⟨some ⟨false, [1, 2]⟩, some [3], true⟩).networkUsed
        = true
    ∧ (get_image_bytes true "http://img/a.jpg" ⟨some ⟨false, [1, 2]⟩, some [3], true⟩).bytes
        = some [3] := by
  refine ⟨rfl, rfl, rfl⟩

lemma get_image_bytes_running (url : String) (w : ImgWorld) (hu : url.isEmpty = false) :
    get_image_bytes true url w
      = match w.cacheFile with
        | some f => if f.readable then ⟨some f.content, true, false, w⟩ else downloadImage w true
        | none => downloadImage w false := by
  unfold get_image_bytes
  rw [hu]
  rfl

/-- C8 amended: for a non-empty image URL while the worker is running:
a readable existing cache file is returned with no network request; a first
fetch with no cache file, a successful GET and a successful write returns
the downloaded bytes after one network request and leaves the bytes cached,
so the second fetch of the same URL is served from the cache with no
network request (exactly one download across the two calls); and when the
GET fails (no readable cache available) the call returns `none` instead of
raising. -/
theorem get_image_bytes_cache_behaviour (url : String) (w : ImgWorld)
    (hu : url.isEmpty = false) :
    (∀ f, w.cacheFile = some f → f.readable = true →
      get_image_bytes true url w = ⟨some f.content, true, false, w⟩)
    ∧ (w.cacheFile = none → ∀ d, w.download = some d → w.writeOk = true →
      get_image_bytes true url w
        = ⟨some d, false, true, ⟨some ⟨true, d⟩, w.download, w.writeOk⟩⟩)
    ∧ (∀ (d : ImageBytes) (dl : Option ImageBytes) (wo : Bool),
      get_image_bytes true url ⟨some ⟨true, d⟩, dl, wo⟩
        = ⟨some d, true, false, ⟨some ⟨true, d⟩, dl, wo⟩⟩)
    ∧ ((w.cacheFile = none ∨ ∃ f, w.cacheFile = some f ∧ f.readable = false) →
      w.download = none → (get_image_bytes true url w).bytes = none) := by
  refine ⟨?_, ?_, ?_, ?_⟩
  · intro f hf hr
    rw [get_image_bytes_running url w hu, hf]
    show (if f.readable = true then _ else _) = _
    rw [if_pos hr]
  · intro hc d hd hw
    rw [get_image_bytes_running url w hu, hc]
    show downloadImage w false = _
    unfold downloadImage
    rw [hd]
    show (if w.writeOk = true then _ else _) = _
    rw [if_pos hw]
  · intro d dl wo
    rw [get_image_bytes_running url ⟨some ⟨true, d⟩, dl, wo⟩ hu]
    rfl
  · intro hc hd
    rcases hc with hc | ⟨f, hf, hr⟩
    · rw [get_image_bytes_running url w hu, hc]
      show (downloadImage w false).bytes = none
      unfold downloadImage
      rw [hd]
    · rw [get_image_bytes_running url w hu, hf]
      show (if f.readable = true then ImgFetchResult.mk (some f.content) true false w
          else downloadImage w true).bytes = none
      rw [hr]
      show (downloadImage w true).bytes = none
      unfold downloadImage
      rw [hd]

/-- C8 amended, witness: fetching the URL "u" twice starting from an empty
cache with a successful download: the first call downloads and caches
[9, 9], the second call is served from the cache with no network use. -/
theorem get_image_bytes_cache_behaviour_w :
    get_image_bytes true "u" ⟨none, some [9, 9], true⟩
      = ⟨some [9, 9], false, true,
          ⟨some ⟨true, [9, 9]⟩, (⟨none, some [9, 9], true⟩ : ImgWorld).download,
            (⟨none, some [9, 9], true⟩ : ImgWorld).writeOk⟩⟩
    ∧ get_image_bytes true "u" ⟨some ⟨true, [9, 9]⟩, none, true⟩
      = ⟨some [9, 9], true, false, ⟨some ⟨true, [9, 9]⟩, none, true⟩⟩ :=
  ⟨(get_image_bytes_cache_behaviour "u" ⟨none, some [9, 9], true⟩ (by decide)).2.1
      rfl [9, 9] rfl rfl,
    (get_image_bytes_cache_behaviour "u" ⟨some ⟨true, [9, 9]⟩, none, true⟩
        (by decide)).2.2.1 [9, 9] none true⟩

/-- C10: once `stop()` has cleared the running flag
(services/workers.py:119-120), `_get_image_bytes` returns `None` before
touching the cache file or the network (the guard at
services/workers.py:34-35), for every image URL and every cache/network
state — so a task completing after cancellation carries no image bytes even
when its image is already cached. -/
theorem get_image_bytes_after_stop (url : String) (w : ImgWorld) :
    get_image_bytes false url w = ⟨none, false, false, w⟩ := by
  unfold get_image_bytes
  simp

/-- C10 witness: with the flag cleared, a URL whose image is cached and
downloadable still yields no bytes, no cache read and no network use. -/
theorem get_image_bytes_after_stop_w :
    get_image_bytes false "http://img/a.jpg" ⟨some ⟨true, [7]⟩, some [8], true⟩
      = ⟨none, false, false, ⟨some ⟨true, [7]⟩, some [8], true⟩⟩ :=
  get_image_bytes_after_stop "http://img/a.jpg" ⟨some ⟨true, [7]⟩, some [8], true⟩

/-! ## Helper lemmas: orchestrator events -/

lemma terminal_shape (c : TaskCompletion) :
    terminalEvent c = ScrapeEvent.itemScrapedEv c.id
    ∨ terminalEvent c = ScrapeEvent.errorEv c.name := by
  unfold terminalEvent
  by_cases h1 : c.crashed
  · rw [if_pos h1]
    exact Or.inr rfl
  · rw [if_neg h1]
    by_cases h2 : (c.price.isSome || c.imgUrl.isSome) = true
    · rw [if_pos h2]
      exact Or.inl rfl
    · rw [if_neg h2]
      exact Or.inr rfl

lemma progressValues_cons_terminal (c : TaskCompletion) (l : List ScrapeEvent) :
    progressValues (terminalEvent c :: l) = progressValues l := by
  rcases terminal_shape c with h | h <;> rw [h] <;> rfl

lemma loopEvents_cons (cancelAfter : Option Nat) (c : TaskCompletion)
    (rest : List TaskCompletion) (k : Nat) (h : cancelObserved cancelAfter k = false) :
    loopEvents cancelAfter (c :: rest) k
      = terminalEvent c :: ScrapeEvent.progressEv (k + 1) :: loopEvents cancelAfter rest (k + 1) := by
  simp only [loopEvents]
  rw [h]
  simp

lemma loop_none_progress :
    ∀ (cs : List TaskCompletion) (k : Nat),
      progressValues (loopEvents none cs k) = List.range' (k + 1) cs.length := by
  intro cs
  induction cs with
  | nil =>
    intro k
    rfl
  | cons c rest ih =>
    intro k
    rw [loopEvents_cons none c rest k rfl, progressValues_cons_terminal]
    show (k + 1) :: progressValues (loopEvents none rest (k + 1))
        = List.range' (k + 1) (rest.length + 1)
    rw [ih (k + 1), List.range'_succ]

lemma loop_none_terminal :
    ∀ (cs : List TaskCompletion) (k : Nat),
      (loopEvents none cs k).filter isTerminalEvent = cs.map terminalEvent := by
  intro cs
  induction cs with
  | nil =>
    intro k
    rfl
  | cons c rest ih =>
    intro k
    rw [loopEvents_cons none c rest k rfl]
    have hter : isTerminalEvent (terminalEvent c) = true := by
      rcases terminal_shape c with h | h <;> rw [h] <;> rfl
    have hprog : isTerminalEvent (ScrapeEvent.progressEv (k + 1)) = false := rfl
    simp [List.filter_cons, hter, hprog, ih (k + 1)]

lemma loop_none_counts :
    ∀ (cs : List TaskCompletion) (k : Nat),
      (loopEvents none cs k).countP isScrapedEvent
        + (loopEvents none cs k).countP isErrorEvent = cs.length := by
  intro cs
  induction cs with
  | nil =>
    intro k
    rfl
  | cons c rest ih =>
    intro k
    rw [loopEvents_cons none c rest k rfl]
    have := ih (k + 1)
    rcases terminal_shape c with h | h <;>
      simp [List.countP_cons, h, isScrapedEvent, isErrorEvent] <;>
      omega

lemma isEmpty_false_of_ne_nil {cs : List TaskCompletion} (h : cs ≠ []) :
    cs.isEmpty = false := by
  cases cs with
  | nil => exact absurd rfl h
  | cons a l => rfl

lemma loopEvents_cancel :
    ∀ (cs : List TaskCompletion) (k j : Nat),
      loopEvents (some (k + j)) cs k = loopEvents none (cs.take j) k := by
  intro cs
  induction cs with
  | nil =>
    intro k j
    simp [loopEvents]
  | cons c rest ih =>
    intro k j
    cases j with
    | zero =>
      have hobs : cancelObserved (some (k + 0)) k = true := by
        simp [cancelObserved]
      unfold loopEvents
      rw [hobs]
      rfl
    | succ j =>
      have e : k + (j + 1) = (k + 1) + j := by omega
      rw [e]
      have hobs : cancelObserved (some ((k + 1) + j)) k = false := by
        simp only [cancelObserved, decide_eq_false_iff_not]
        omega
      rw [List.take_succ_cons, loopEvents_cons _ c rest k hobs,
        loopEvents_cons none c (rest.take j) k rfl, ih (k + 1) j]

/-! ## Claim theorems: Task Orchestrator -/

/-- C5 counterexample: three tasks on a pool of width 1, cancel landing
after the first completion is processed — the third task, still queued at
cancellation time, is nevertheless started and run (`shutdown(wait=True)`
at the `with` block exit executes pending work items; nothing cancels
them), even though the consumption loop stops after one completion and
emits `finished(true)`. -/
theorem queued_task_runs_after_cancel :
    (⟨"i3", "n3", none, none, false⟩ : TaskCompletion) ∈
      tasksStarted 1
        [⟨"i1", "n1", some 5, none, false⟩, ⟨"i2", "n2", some 6, none, false⟩,
          ⟨"i3", "n3", none, none, false⟩] (some 1)
    ∧ runEvents
        [⟨"i1", "n1", some 5, none, false⟩, ⟨"i2", "n2", some 6, none, false⟩,
          ⟨"i3", "n3", none, none, false⟩] (some 1)
      = [ScrapeEvent.startedEv 3, ScrapeEvent.itemScrapedEv "i1", ScrapeEvent.progressEv 1,
          ScrapeEvent.finishedEv true] := by
  constructor
  · decide
  · decide

/-- C5 amended: a cancel request landing after c completions were processed
stops the consumption loop — the event stream is `started`, the terminal
and progress events of the first c completions only, then `finished(true)`
— but every submitted task is still started and run by the pool: the flag
prevents further result processing, not further task dispatch. -/
theorem run_cancellation_behaviour (cs : List TaskCompletion) (c : Nat) (h : cs ≠ []) :
    tasksStarted 1 cs (some c) = cs
    ∧ runEvents cs (some c)
        = ScrapeEvent.startedEv cs.length ::
            (loopEvents none (cs.take c) 0 ++ [ScrapeEvent.finishedEv true]) := by
  refine ⟨rfl, ?_⟩
  have hne : cs.isEmpty = false := isEmpty_false_of_ne_nil h
  have hloop := loopEvents_cancel cs 0 c
  rw [Nat.zero_add] at hloop
  simp [runEvents, hne, hloop]

/-- C5 amended, witness: two tasks, cancel after the first completion:
the whole batch is started, and the stream is started, the first task's
terminal events, then finished(true). -/
theorem run_cancellation_behaviour_w :
    tasksStarted 1 [⟨"a", "A", some 1, none, false⟩, ⟨"b", "B", none, none, true⟩] (some 1)
        = [⟨"a", "A", some 1, none, false⟩, ⟨"b", "B", none, none, true⟩]
    ∧ runEvents [⟨"a", "A", some 1, none, false⟩, ⟨"b", "B", none, none, true⟩] (some 1)
        = ScrapeEvent.startedEv
            ([⟨"a", "A", some 1, none, false⟩,
              ⟨"b", "B", none, none, true⟩] : List TaskCompletion).length ::
            (loopEvents none
              (([⟨"a", "A", some 1, none, false⟩,
                ⟨"b", "B", none, none, true⟩] : List TaskCompletion).take 1) 0
              ++ [ScrapeEvent.finishedEv true]) :=
  run_cancellation_behaviour
    [⟨"a", "A", some 1, none, false⟩, ⟨"b", "B", none, none, true⟩] 1 (by decide)

/-- C7: for every non-empty batch, in completion order: the progress events
are exactly 1, 2, ..., N (strictly increasing by one per task terminal
outcome); the terminal events are exactly one per completed task, in
completion order; and the itemDone count plus the itemFailed count equals
the task count. -/
theorem run_progress_accounting (cs : List TaskCompletion) (h : cs ≠ []) :
    progressValues (runEvents cs none) = List.range' 1 cs.length
    ∧ (runEvents cs none).filter isTerminalEvent = cs.map terminalEvent
    ∧ (runEvents cs none).countP isScrapedEvent + (runEvents cs none).countP isErrorEvent
        = cs.length := by
  have hne : cs.isEmpty = false := isEmpty_false_of_ne_nil h
  have hrun : runEvents cs none
      = ScrapeEvent.startedEv cs.length ::
          (loopEvents none cs 0 ++ [ScrapeEvent.finishedEv false]) := by
    simp [runEvents, hne]
  refine ⟨?_, ?_, ?_⟩
  · rw [hrun]
    show progressValues (loopEvents none cs 0 ++ [ScrapeEvent.finishedEv false])
        = List.range' 1 cs.length
    unfold progressValues
    rw [List.filterMap_append]
    show progressValues (loopEvents none cs 0) ++ [] = List.range' 1 cs.length
    rw [List.append_nil]
    exact loop_none_progress cs 0
  · rw [hrun]
    show (loopEvents none cs 0 ++ [ScrapeEvent.finishedEv false]).filter isTerminalEvent
        = cs.map terminalEvent
    rw [List.filter_append]
    show (loopEvents none cs 0).filter isTerminalEvent ++ [] = cs.map terminalEvent
    rw [List.append_nil]
    exact loop_none_terminal cs 0
  · rw [hrun]
    have h1 := loop_none_counts cs 0
    simp only [List.countP_cons, List.countP_append]
    show (loopEvents none cs 0).countP isScrapedEvent + 0 + 0
        + ((loopEvents none cs 0).countP isErrorEvent + 0 + 0) = cs.length
    omega

/-- C7 witness: a batch of five completions (three successes, one total
parser failure, one crash) in some completion order: progress is exactly
1..5. -/
theorem run_progress_accounting_w :
    progressValues (runEvents
      [⟨"a", "A", some 3, none, false⟩, ⟨"b", "B", none, some "u", false⟩,
        ⟨"c", "C", none, none, false⟩, ⟨"d", "D", none, none, true⟩,
        ⟨"e", "E", some 7, some "v", false⟩] none)
      = List.range' 1
          ([⟨"a", "A", some 3, none, false⟩, ⟨"b", "B", none, some "u", false⟩,
            ⟨"c", "C", none, none, false⟩, ⟨"d", "D", none, none, true⟩,
            ⟨"e", "E", some 7, some "v", false⟩] : List TaskCompletion).length :=
  (run_progress_accounting
    [⟨"a", "A", some 3, none, false⟩, ⟨"b", "B", none, some "u", false⟩,
      ⟨"c", "C", none, none, false⟩, ⟨"d", "D", none, none, true⟩,
      ⟨"e", "E", some 7, some "v", false⟩] (by decide)).1

end PCPlanner
